import Mathlib

/-!
Shallow embedding of the image-scrapper pipeline (`src/isg.py`).

The program has four public operations, all embedded here from the source:

* `sanitize_filename`      — `isg.py` lines 31–35
* `search_and_download_images` — `isg.py` lines 37–110 (paging loop, download
  loop, status messages)
* `clear_downloaded_images`    — `isg.py` lines 112–131 (two-level delete)
* `download_images_batch`      — `isg.py` lines 150–208 (row loop, validation)

External effects are made explicit:

* The search API is a list `api : List PageResult`; fetching page `i` yields
  `api[i]`, and any page beyond the end of the list is a successful response
  with an empty `images_results` field (the provider is exhausted).  An
  `Except.error` element models a request that raised or had a non-success
  HTTP status (`requests.get` / `raise_for_status`).
* Per-image fetching and file writing is an oracle
  `Nat → String → Except String Unit` giving, for the candidate at a given
  index and URL, either success or the exception message raised by the fetch,
  the status check, or the write.
* The filesystem tree under the download root is a `List FSNode` (the
  children of the root folder; names are irrelevant to the claims).
* A CSV already parsed by pandas is a `List BatchRow`; cell values carry
  Python dynamic typing through `PyVal` (ints, floats, the float NaN that
  pandas uses for missing numeric cells, and strings).

Python string primitives that the source uses (`str.split` with a one-char
separator, `str.strip`, `str.isalnum`, membership test) are re-implemented
over `List Char` so that every definition evaluates inside the kernel.
Unicode classes are restricted to ASCII (`Char.isAlphanum`,
`Char.isWhitespace`), which is faithful on every string the claims mention.
-/

/-- Python `s.split(sep)` for a single-character separator, on `List Char`:
`split` of the empty string is `[[]]`, and each separator occurrence starts a
new (possibly empty) chunk. -/
def splitOnChar (sep : Char) : List Char → List (List Char)
  | [] => [[]]
  | c :: cs =>
    match splitOnChar sep cs with
    | [] => [[]]
    | p :: ps => if c = sep then [] :: p :: ps else (c :: p) :: ps

/-- Python `s.split(sep)` on `String`, via `splitOnChar`. -/
def pySplit (sep : Char) (s : String) : List String :=
  (splitOnChar sep s.data).map String.mk

/-- Python `s.strip()`: remove leading and trailing whitespace. -/
def pyStrip (s : String) : String :=
  String.mk (((s.data.dropWhile Char.isWhitespace).reverse.dropWhile
    Char.isWhitespace).reverse)

/-- Python `s.isalnum()`: true iff `s` is nonempty and every character is
alphanumeric (false on the empty string, as in Python). -/
def pyIsAlnum (s : String) : Bool :=
  !s.data.isEmpty && s.data.all Char.isAlphanum

/-- One character of `sanitize_filename` (`isg.py` line 33):
`c if c.isalnum() or c in (' ', '_') else "_"`. -/
def sanitizeChar (c : Char) : Char :=
  if c.isAlphanum ∨ c = ' ' ∨ c = '_' then c else '_'

/-- `sanitize_filename` (`isg.py` lines 31–35): keep alphanumerics, space and
underscore, replace every other character by an underscore. -/
def sanitize_filename (name : String) : String :=
  String.mk (name.data.map sanitizeChar)

/-- The raw extension computed at `isg.py` line 87:
`url.split('.')[-1].split('?')[0]` — the chunk after the last dot of the whole
URL, truncated at the first question mark. -/
def rawExtension (url : String) : String :=
  (pySplit '?' ((pySplit '.' url).getLastD "")).headD ""

/-- The extension actually used for the saved file (`isg.py` lines 87–89):
the raw extension, defaulting to `"jpg"` when it is longer than 4 characters
or not purely alphanumeric (in particular when it is empty). -/
def fileExtension (url : String) : String :=
  let ext := rawExtension url
  if 4 < ext.length || !pyIsAlnum ext then "jpg" else ext

/-- Modelled from the spec and claim C6's words, for comparison with the
code's `fileExtension`: "derive a file extension from the URL's trailing path
segment (stripping any query string)", empty when that segment has no dot. -/
def specTrailingExtension (url : String) : String :=
  let seg := (pySplit '/' url).getLastD ""
  let stripped := (pySplit '?' seg).headD ""
  if stripped.data.contains '.' then (pySplit '.' stripped).getLastD "" else ""

/-- One entry of the `images_results` field of a search response, with its
two optional URL fields (`isg.py` line 68). -/
structure Entry where
  original : Option String
  image : Option String
deriving DecidableEq

/-- Python truthiness filter for an optional string: `None` and `""` are
falsy. -/
def truthyStr : Option String → Option String
  | some s => if s = "" then none else some s
  | none => none

/-- `img.get('original') or img.get('image')` followed by `if url:`
(`isg.py` lines 68–70): the first truthy field wins, entries with neither
are skipped. -/
def entryUrl (e : Entry) : Option String :=
  match truthyStr e.original with
  | some u => some u
  | none => truthyStr e.image

/-- All URLs extractable from one page of entries. -/
def pageUrls (entries : List Entry) : List String :=
  entries.filterMap entryUrl

/-- Outcome of one paging request: the page's `images_results` entries, or
the message of the exception raised by the request. -/
abbrev PageResult := Except String (List Entry)

/-- Observable state of the paging loop when it ends: the accumulated URLs,
the final page cursor (`params["ijn"]`), how many page requests were issued,
and whether the loop ended because a fetched page was empty. -/
structure SearchOut where
  urls : List String
  cursor : Nat
  fetched : Nat
  exhausted : Bool
deriving DecidableEq

/-- The inner `for img in new_images` loop (`isg.py` lines 67–73): append
each extracted URL, and break as soon as the accumulator holds at least
`num` URLs (the length test runs after every entry, as in the source). -/
def collectEntries (num : Nat) : List String → List Entry → List String
  | acc, [] => acc
  | acc, e :: es =>
    match entryUrl e with
    | some u =>
      if num ≤ (acc ++ [u]).length then acc ++ [u]
      else collectEntries num (acc ++ [u]) es
    | none =>
      if num ≤ acc.length then acc else collectEntries num acc es

/-- The `while len(image_urls) < num_images` paging loop (`isg.py` lines
55–76) over the remaining API pages.  A request is issued only when the
guard holds; an empty response breaks out *before* the cursor increment at
line 75, while a page that fills the accumulator still gets the increment.
Requests beyond the end of `api` return an empty page. -/
def searchGo (num : Nat) :
    List PageResult → List String → Nat → Nat → Except String SearchOut
  | [], acc, c, f =>
    if acc.length < num then .ok ⟨acc, c, f + 1, true⟩ else .ok ⟨acc, c, f, false⟩
  | .error e :: _, acc, c, f =>
    if acc.length < num then .error e else .ok ⟨acc, c, f, false⟩
  | .ok [] :: _, acc, c, f =>
    if acc.length < num then .ok ⟨acc, c, f + 1, true⟩ else .ok ⟨acc, c, f, false⟩
  | .ok (e :: es) :: rest, acc, c, f =>
    if acc.length < num then
      searchGo num rest (collectEntries num acc (e :: es)) (c + 1) (f + 1)
    else .ok ⟨acc, c, f, false⟩

/-- The whole search phase: run the paging loop from cursor 0 and truncate
the accumulator to `num` entries (`image_urls[:num_images]`, line 79). -/
def searchPhase (api : List PageResult) (num : Nat) : Except String SearchOut :=
  match searchGo num api [] 0 0 with
  | .error e => .error e
  | .ok out => .ok { out with urls := out.urls.take num }

/-- The URLs the paging loop can ever see: everything up to the first empty
page (pagination stops there; the end of the list is an empty page). -/
def availableUrls : List (List Entry) → List String
  | [] => []
  | [] :: _ => []
  | (e :: es) :: rest => pageUrls (e :: es) ++ availableUrls rest

/-- The path a successful download at index `idx` is written to
(`isg.py` line 90): `save_folder/image_{idx+1}.{extension}`. -/
def imagePath (folder : String) (idx : Nat) (url : String) : String :=
  folder ++ "/image_" ++ toString (idx + 1) ++ "." ++ fileExtension url

/-- The download loop (`isg.py` lines 82–96): for each URL in order, attempt
the fetch-and-write (the oracle); on success append the written path, on any
exception log and continue with the next candidate. -/
def downloadGo (oracle : Nat → String → Except String Unit) (folder : String) :
    Nat → List String → List String → List String
  | _, acc, [] => acc
  | idx, acc, url :: rest =>
    match oracle idx url with
    | .ok _ => downloadGo oracle folder (idx + 1) (acc ++ [imagePath folder idx url]) rest
    | .error _ => downloadGo oracle folder (idx + 1) acc rest

/-- The download phase started at index 0 with an empty accumulator. -/
def downloadPhase (oracle : Nat → String → Except String Unit)
    (folder : String) (urls : List String) : List String :=
  downloadGo oracle folder 0 [] urls

/-- The record the download loop keeps for one enumerated candidate: the
written path if the oracle succeeds, nothing if it fails. -/
def dlRecord (oracle : Nat → String → Except String Unit) (folder : String)
    (p : Nat × String) : Option String :=
  match oracle p.1 p.2 with
  | .ok _ => some (imagePath folder p.1 p.2)
  | .error _ => none

/-- The terminal error status of `search_and_download_images`
(`isg.py` line 108). -/
def errorMessage (query e : String) : String :=
  "An error occurred while downloading images for keyword: " ++ query
    ++ ". Error: " ++ e

/-- The "nothing downloaded" status (`isg.py` line 99). -/
def noImagesMessage (query : String) : String :=
  "No images were downloaded for keyword: " ++ query
    ++ ". Please try a different query or reduce the number."

/-- The success status (`isg.py` line 103). -/
def successMessage (query : String) (n : Nat) : String :=
  "Downloaded " ++ toString n ++ " images for keyword: " ++ query ++ "."

/-- `search_and_download_images` (`isg.py` lines 37–110): search, truncate,
download each candidate fail-soft, and return the downloaded paths with a
status string.  A failed paging request lands in the outer handler, which
returns an empty list and the error status. -/
def search_and_download_images (query : String) (api : List PageResult)
    (oracle : Nat → String → Except String Unit) (numImages : Nat)
    (saveFolder : String) : List String × String :=
  match searchPhase api numImages with
  | .error e => ([], errorMessage query e)
  | .ok out =>
    let downloaded := downloadPhase oracle saveFolder out.urls
    if downloaded = [] then ([], noImagesMessage query)
    else (downloaded, successMessage query downloaded.length)

/-- A node of the filesystem tree under the download root: a plain file, or
a folder with its children.  Names play no role in the claims. -/
inductive FSNode where
  | file : FSNode
  | dir : List FSNode → FSNode

/-- The inner loop of `clear_downloaded_images` (`isg.py` lines 118–119):
`subfile.unlink()` over the children of a first-level folder.  `unlink` on a
directory raises `IsADirectoryError` (Linux), which aborts the clear; the
result is the children still present plus the error, if any. -/
def clearSubs : List FSNode → List FSNode × Option String
  | [] => ([], none)
  | FSNode.file :: rest => clearSubs rest
  | FSNode.dir cs :: rest => (FSNode.dir cs :: rest, some "IsADirectoryError")

/-- The outer loop of `clear_downloaded_images` (`isg.py` lines 116–124):
files in the root are unlinked; first-level folders have their children
unlinked and are then removed with `rmdir`.  The first exception stops the
loop. -/
def clearTop : List FSNode → List FSNode × Option String
  | [] => ([], none)
  | FSNode.file :: rest => clearTop rest
  | FSNode.dir cs :: rest =>
    match clearSubs cs with
    | (rem, some e) => (FSNode.dir rem :: rest, some e)
    | (_, none) => clearTop rest

/-- `clear_downloaded_images` (`isg.py` lines 112–131) on the children of
the download root (the root folder itself is never touched): returns the
children left on disk and the status string. -/
def clear_downloaded_images (rootChildren : List FSNode) : List FSNode × String :=
  match clearTop rootChildren with
  | (rem, none) => (rem, "Download folder cleared.")
  | (rem, some e) => (rem, "Failed to clear download folder: " ++ e)

/-- A pandas cell value as the batch loop sees it: a Python int, a float, the
float NaN (pandas' missing value), or a string. -/
inductive PyVal where
  | int (n : Int)
  | float (q : ℚ)
  | nan
  | str (s : String)
deriving DecidableEq

/-- One CSV row after header normalisation: the `keyword` and `category`
cells already passed through `str(...)`, the `numbers` cell kept as is. -/
structure BatchRow where
  keyword : String
  numbers : PyVal
  category : String
deriving DecidableEq

/-- The external world one pipeline invocation sees: its search API pages
and its download oracle. -/
structure World where
  api : List PageResult
  oracle : Nat → String → Except String Unit

/-- `isinstance(numbers, (int, float))` — NaN is a float. -/
def pyIsNum : PyVal → Bool
  | .int _ => true
  | .float _ => true
  | .nan => true
  | .str _ => false

/-- Python `numbers < 1`.  Every comparison with NaN is false; the string
case is never evaluated thanks to short-circuiting (`isg.py` line 182). -/
def pyLtOne : PyVal → Bool
  | .int n => n < 1
  | .float q => q < 1
  | .nan => false
  | .str _ => false

/-- Python `int(numbers)` (`isg.py` line 197): exact on ints, truncation
toward zero on floats, and a `ValueError` on NaN. -/
def pyToInt : PyVal → Except String Int
  | .int n => .ok n
  | .float q => .ok (q.num.tdiv q.den)
  | .nan => .error "cannot convert float NaN to integer"
  | .str s => .error ("invalid literal for int with base 10: " ++ s)

/-- The row validation at `isg.py` line 182:
`not keyword or not category or not isinstance(numbers, (int, float)) or numbers < 1`. -/
def rowInvalid (r : BatchRow) : Bool :=
  pyStrip r.keyword = "" || pyStrip r.category = ""
    || !pyIsNum r.numbers || pyLtOne r.numbers

/-- The configured download root (`isg.py` line 25). -/
def DOWNLOAD_FOLDER : String := "downloaded_images"

/-- The per-row destination folder (`isg.py` lines 192–193):
`root/sanitized_category/sanitized_keyword`. -/
def rowFolder (r : BatchRow) : String :=
  DOWNLOAD_FOLDER ++ "/" ++ sanitize_filename (pyStrip r.category)
    ++ "/" ++ sanitize_filename (pyStrip r.keyword)

/-- The skip status for an invalid row (`isg.py` line 183). -/
def rowStatus (i : Nat) : String :=
  "Row " ++ toString (i + 1) ++ ": Invalid data. Skipped."

/-- The `for index, row in df.iterrows()` loop (`isg.py` lines 175–198):
invalid rows get a skip status, valid rows run the pipeline and contribute
its status.  An exception inside the loop — `int()` on NaN is the one that
can happen — aborts everything and propagates to the outer handler. -/
def processRows (w : Nat → World) : Nat → List BatchRow → Except String (List String)
  | _, [] => .ok []
  | i, r :: rs =>
    if rowInvalid r then
      match processRows w (i + 1) rs with
      | .ok sts => .ok (rowStatus i :: sts)
      | .error e => .error e
    else
      match pyToInt r.numbers with
      | .error e => .error e
      | .ok n =>
        match processRows w (i + 1) rs with
        | .ok sts =>
          .ok ((search_and_download_images (pyStrip r.keyword) (w i).api
            (w i).oracle n.toNat (rowFolder r)).2 :: sts)
        | .error e => .error e

/-- `download_images_batch` (`isg.py` lines 150–208) after the CSV was read
and its columns validated: join the per-row statuses with newlines, or
return the single terminal error status from the outer handler. -/
def download_images_batch (w : Nat → World) (rows : List BatchRow) : String :=
  match processRows w 0 rows with
  | .ok sts => String.intercalate "\n" sts
  | .error e => "An error occurred while processing the CSV file. Error: " ++ e

/-- The status one enumerated row contributes when the batch loop does not
abort: the skip status for invalid rows, the pipeline status otherwise. -/
def rowOutcome (w : Nat → World) (p : Nat × BatchRow) : String :=
  if rowInvalid p.2 then rowStatus p.1
  else (search_and_download_images (pyStrip p.2.keyword) (w p.1).api
    (w p.1).oracle (((pyToInt p.2.numbers).toOption.getD 0).toNat)
    (rowFolder p.2)).2

/-- A tree of depth at most the two levels `clear_downloaded_images` can
handle: a plain file, or a folder whose children are all plain files. -/
def flatNode : FSNode → Bool
  | FSNode.file => true
  | FSNode.dir cs => cs.all (fun c => match c with
      | FSNode.file => true
      | FSNode.dir _ => false)

/-! ### Helper lemmas about the paging loop -/

theorem pageUrls_cons_some {e : Entry} {u : String} (es : List Entry)
    (h : entryUrl e = some u) : pageUrls (e :: es) = u :: pageUrls es := by
  simp [pageUrls, List.filterMap_cons, h]

theorem pageUrls_cons_none {e : Entry} (es : List Entry)
    (h : entryUrl e = none) : pageUrls (e :: es) = pageUrls es := by
  simp [pageUrls, List.filterMap_cons, h]

theorem collectEntries_eq (num : Nat) :
    ∀ (es : List Entry) (acc : List String), acc.length < num →
      collectEntries num acc es = acc ++ (pageUrls es).take (num - acc.length) := by
  intro es
  induction es with
  | nil =>
    intro acc _
    simp [collectEntries, pageUrls]
  | cons e es ih =>
    intro acc hacc
    cases hu : entryUrl e with
    | none =>
      simp only [collectEntries, hu]
      rw [if_neg (by omega), ih acc hacc, pageUrls_cons_none es hu]
    | some u =>
      simp only [collectEntries, hu]
      by_cases hle : num ≤ (acc ++ [u]).length
      · rw [if_pos hle, pageUrls_cons_some es hu]
        have h1 : num - acc.length = 1 := by
          simp only [List.length_append, List.length_cons, List.length_nil] at hle
          omega
        rw [h1]
        simp
      · rw [if_neg hle, pageUrls_cons_some es hu]
        have h2 : (acc ++ [u]).length < num := by
          simp only [List.length_append, List.length_cons, List.length_nil] at hle ⊢
          omega
        rw [ih _ h2]
        have h3 : num - acc.length = (num - (acc ++ [u]).length) + 1 := by
          simp only [List.length_append, List.length_cons, List.length_nil] at hle ⊢
          omega
        rw [h3, List.take_succ_cons]
        simp [List.append_assoc]

theorem searchGo_ok_urls (num : Nat) :
    ∀ (pages : List (List Entry)) (acc : List String) (c f : Nat), ∃ out : SearchOut,
      searchGo num (pages.map Except.ok) acc c f = Except.ok out ∧
      out.urls = acc ++ (availableUrls pages).take (num - acc.length) := by
  intro pages
  induction pages with
  | nil =>
    intro acc c f
    by_cases h : acc.length < num
    · exact ⟨⟨acc, c, f + 1, true⟩, by simp [searchGo, h], by simp [availableUrls]⟩
    · exact ⟨⟨acc, c, f, false⟩, by simp [searchGo, h], by simp [availableUrls]⟩
  | cons p pages ih =>
    intro acc c f
    cases p with
    | nil =>
      by_cases h : acc.length < num
      · exact ⟨⟨acc, c, f + 1, true⟩, by simp [searchGo, h], by simp [availableUrls]⟩
      · exact ⟨⟨acc, c, f, false⟩, by simp [searchGo, h], by simp [availableUrls]⟩
    | cons e es =>
      by_cases h : acc.length < num
      · obtain ⟨out, hout, hurls⟩ := ih (collectEntries num acc (e :: es)) (c + 1) (f + 1)
        refine ⟨out, by simpa [searchGo, h] using hout, ?_⟩
        rw [hurls, collectEntries_eq num (e :: es) acc h]
        have havail : availableUrls ((e :: es) :: pages)
            = pageUrls (e :: es) ++ availableUrls pages := rfl
        rw [havail, List.take_append_eq_append_take, List.length_append, List.length_take]
        have harith : num - (acc.length
              + min (num - acc.length) (pageUrls (e :: es)).length)
            = num - acc.length - (pageUrls (e :: es)).length := by
          rcases Nat.le_total (num - acc.length) (pageUrls (e :: es)).length with h1 | h1
          · rw [Nat.min_eq_left h1]; omega
          · rw [Nat.min_eq_right h1]; omega
        rw [harith, List.append_assoc]
      · refine ⟨⟨acc, c, f, false⟩, by simp [searchGo, h], ?_⟩
        have h0 : num - acc.length = 0 := by omega
        simp [h0]

theorem searchGo_count :
    ∀ (rest : List PageResult) (num : Nat) (acc : List String) (c f : Nat)
      (out : SearchOut), searchGo num rest acc c f = Except.ok out →
      out.fetched + c = out.cursor + f + (if out.exhausted then 1 else 0) := by
  intro rest
  induction rest with
  | nil =>
    intro num acc c f out h
    by_cases hg : acc.length < num
    · simp only [searchGo, if_pos hg] at h
      injection h with h'
      subst h'
      show f + 1 + c = c + f + 1
      omega
    · simp only [searchGo, if_neg hg] at h
      injection h with h'
      subst h'
      show f + c = c + f + 0
      omega
  | cons pr rest ih =>
    intro num acc c f out h
    cases pr with
    | error e =>
      by_cases hg : acc.length < num
      · simp only [searchGo, if_pos hg] at h
        exact absurd h (by simp)
      · simp only [searchGo, if_neg hg] at h
        injection h with h'
        subst h'
        show f + c = c + f + 0
        omega
    | ok entries =>
      cases entries with
      | nil =>
        by_cases hg : acc.length < num
        · simp only [searchGo, if_pos hg] at h
          injection h with h'
          subst h'
          show f + 1 + c = c + f + 1
          omega
        · simp only [searchGo, if_neg hg] at h
          injection h with h'
          subst h'
          show f + c = c + f + 0
          omega
      | cons e es =>
        by_cases hg : acc.length < num
        · simp only [searchGo, if_pos hg] at h
          have hstep := ih num (collectEntries num acc (e :: es)) (c + 1) (f + 1) out h
          cases hx : out.exhausted <;> simp [hx] at hstep ⊢ <;> omega
        · simp only [searchGo, if_neg hg] at h
          injection h with h'
          subst h'
          show f + c = c + f + 0
          omega

theorem searchPhase_urls_le {api : List PageResult} {num : Nat} {out : SearchOut}
    (h : searchPhase api num = Except.ok out) : out.urls.length ≤ num := by
  unfold searchPhase at h
  cases hg : searchGo num api [] 0 0 with
  | error e => rw [hg] at h; exact absurd h (by simp)
  | ok out0 =>
    rw [hg] at h
    injection h with h'
    subst h'
    exact List.length_take_le num out0.urls

/-! ### Helper lemmas about the download loop -/

theorem downloadGo_eq (oracle : Nat → String → Except String Unit) (folder : String) :
    ∀ (urls : List String) (i : Nat) (acc : List String),
      downloadGo oracle folder i acc urls
        = acc ++ (List.enumFrom i urls).filterMap (dlRecord oracle folder) := by
  intro urls
  induction urls with
  | nil => intro i acc; simp [downloadGo, List.enumFrom]
  | cons u rest ih =>
    intro i acc
    have henum : List.enumFrom i (u :: rest) = (i, u) :: List.enumFrom (i + 1) rest := rfl
    cases ho : oracle i u with
    | ok v =>
      simp only [downloadGo, ho]
      rw [ih, henum, List.filterMap_cons]
      simp [dlRecord, ho]
    | error e =>
      simp only [downloadGo, ho]
      rw [ih, henum, List.filterMap_cons]
      simp [dlRecord, ho]

/-! ### C1 — download phase result records -/

/-- C1 (counterexample): with two candidates of which the first one fails,
the download loop returns a single record — the path of the second,
successful candidate — not one record per candidate.  A failed candidate
leaves no record in the returned list (`isg.py` lines 93–96 append only on
success), so the claimed "exactly N result records (success or failure)" is
false on the code. -/
theorem download_record_per_candidate_cex :
    downloadPhase (fun i _ => if i == 0 then Except.error "HTTP 404" else Except.ok ())
        "d" ["http://x/a.png", "http://x/b.png"] = ["d/image_2.png"] ∧
    (downloadPhase (fun i _ => if i == 0 then Except.error "HTTP 404" else Except.ok ())
        "d" ["http://x/a.png", "http://x/b.png"]).length ≠ 2 := by
  exact ⟨by decide, by decide⟩

/-- C1 (amended): the download loop attempts every candidate in input order
and never aborts early — it equals the filter-map that keeps, for each
enumerated candidate, the written path exactly when its fetch-and-write
succeeds.  The returned list therefore holds one record per *successful*
candidate, in input order; failed candidates contribute no record. -/
theorem download_records_successes_in_order
    (oracle : Nat → String → Except String Unit) (folder : String)
    (urls : List String) :
    downloadPhase oracle folder urls
      = (List.enumFrom 0 urls).filterMap (dlRecord oracle folder) := by
  rw [downloadPhase, downloadGo_eq]
  simp

/-! ### C2 — search collects min(target, available) -/

/-- C2: for a target `num > 0` and an API whose paging requests all succeed,
the URL list the search phase hands to the downloader has length
`min num (total candidates extractable before the first empty page)`:
it accumulates page by page, stops at the target or on an empty page, and
truncates to the target. -/
theorem search_length_min_target_available (pages : List (List Entry))
    (num : Nat) (out : SearchOut) (_hn : 0 < num)
    (h : searchPhase (pages.map Except.ok) num = Except.ok out) :
    out.urls.length = min num (availableUrls pages).length := by
  obtain ⟨out0, h0, hurls⟩ := searchGo_ok_urls num pages [] 0 0
  unfold searchPhase at h
  rw [h0] at h
  injection h with h'
  subst h'
  show (List.take num out0.urls).length = _
  rw [hurls]
  simp only [List.nil_append, List.length_nil, Nat.sub_zero]
  rw [List.take_take, Nat.min_self, List.length_take]

/-- Witness for C2 at a concrete input: one page with one extractable URL
and target 2; the search returns 1 = min 2 1 URLs. -/
theorem search_length_min_target_available_witness :
    0 < 2 ∧ (SearchOut.mk ["u"] 1 2 true).urls.length
      = min 2 (availableUrls [[Entry.mk (some "u") none]]).length :=
  ⟨by decide, search_length_min_target_available [[Entry.mk (some "u") none]] 2
    (SearchOut.mk ["u"] 1 2 true) (by decide) (by rfl)⟩

/-! ### C3 — cursor vs pages fetched -/

/-- C3 (counterexample): when the very first page request returns an empty
page (an API with no pages at all), one page has been fetched but the loop
breaks at `isg.py` line 65, *before* the cursor increment at line 75: the
final cursor is 0, not 1.  So "after fetching P pages the cursor equals P"
is false on the code. -/
theorem cursor_advance_every_page_cex :
    searchPhase ([] : List PageResult) 1 = Except.ok (SearchOut.mk [] 0 1 true) ∧
    ¬ (∀ out : SearchOut, searchPhase ([] : List PageResult) 1 = Except.ok out →
        out.cursor = out.fetched) := by
  refine ⟨by rfl, fun hall => ?_⟩
  have h0 := hall (SearchOut.mk [] 0 1 true) (by rfl)
  exact absurd h0 (by decide)

/-- C3 (amended): the cursor starts at 0 and is advanced by 1 after every
*nonempty* page processed; a fetch that returns an empty page ends the loop
before the increment.  Hence after fetching P pages the cursor equals P when
the loop ended by reaching the target (or by the guard), and P − 1 when it
ended on an empty page. -/
theorem cursor_counts_nonempty_pages (api : List PageResult) (num : Nat)
    (out : SearchOut) (h : searchPhase api num = Except.ok out) :
    out.fetched = out.cursor + (if out.exhausted then 1 else 0) := by
  unfold searchPhase at h
  cases hg : searchGo num api [] 0 0 with
  | error e => rw [hg] at h; exact absurd h (by simp)
  | ok out0 =>
    rw [hg] at h
    injection h with h'
    subst h'
    have hc := searchGo_count api num [] 0 0 out0 hg
    simpa using hc

/-- Witness for C3's amended statement at a concrete input: one nonempty
page reaching the target, so one page fetched and final cursor 1. -/
theorem cursor_counts_nonempty_pages_witness :
    (SearchOut.mk ["u"] 1 1 false).fetched
      = (SearchOut.mk ["u"] 1 1 false).cursor
        + (if (SearchOut.mk ["u"] 1 1 false).exhausted then 1 else 0) :=
  cursor_counts_nonempty_pages [Except.ok [Entry.mk (some "u") none]] 1
    (SearchOut.mk ["u"] 1 1 false) (by rfl)

/-! ### C4 — search failure aborts the whole call -/

theorem searchGo_error_reached (num : Nat) (e : String) :
    ∀ (pfx : List (List Entry)) (rest : List PageResult) (acc : List String)
      (c f : Nat), (∀ p ∈ pfx, p ≠ []) →
      acc.length + ((pfx.map pageUrls).flatten).length < num →
      searchGo num (pfx.map Except.ok ++ Except.error e :: rest) acc c f
        = Except.error e := by
  intro pfx
  induction pfx with
  | nil =>
    intro rest acc c f _ hlt
    simp only [List.map_nil, List.flatten_nil, List.length_nil] at hlt
    simp only [List.map_nil, List.nil_append]
    simp [searchGo, show acc.length < num by omega]
  | cons p pfx ih =>
    intro rest acc c f hne hlt
    obtain ⟨e0, es, rfl⟩ : ∃ e0 es, p = e0 :: es := by
      cases p with
      | nil => exact absurd rfl (hne [] (by simp))
      | cons a b => exact ⟨a, b, rfl⟩
    have hlen : acc.length + (pageUrls (e0 :: es)).length
        + ((pfx.map pageUrls).flatten).length < num := by
      simp only [List.map_cons, List.flatten_cons, List.length_append] at hlt
      omega
    have hg : acc.length < num := by omega
    simp only [List.map_cons, List.cons_append]
    simp only [searchGo, if_pos hg]
    rw [collectEntries_eq num (e0 :: es) acc hg,
      List.take_of_length_le (by omega)]
    apply ih rest _ (c + 1) (f + 1) (fun p hp => hne p (by simp [hp]))
    simp only [List.length_append]
    omega

/-- C4: if any paging request the loop reaches fails (the API list holds an
error after a run of nonempty pages that do not yet meet the target), the
entire call aborts fail-fast: `search_and_download_images` returns the error
status together with an empty list — the candidates collected before the
failing page are discarded and nothing is downloaded. -/
theorem search_failure_aborts_call (query folder : String)
    (oracle : Nat → String → Except String Unit) (pfx : List (List Entry))
    (e : String) (rest : List PageResult) (num : Nat)
    (hne : ∀ p ∈ pfx, p ≠ [])
    (hlt : ((pfx.map pageUrls).flatten).length < num) :
    search_and_download_images query (pfx.map Except.ok ++ Except.error e :: rest)
        oracle num folder = ([], errorMessage query e) := by
  have hs : searchGo num (pfx.map Except.ok ++ Except.error e :: rest) [] 0 0
      = Except.error e :=
    searchGo_error_reached num e pfx rest [] 0 0 hne (by simpa using hlt)
  unfold search_and_download_images searchPhase
  rw [hs]

/-- Witness for C4 at a concrete input: the first paging request raises,
and the call returns the error status with an empty result list. -/
theorem search_failure_aborts_call_witness :
    search_and_download_images "q" [Except.error "boom"]
        (fun _ _ => Except.ok ()) 1 "d" = ([], errorMessage "q" "boom") :=
  search_failure_aborts_call "q" "d" (fun _ _ => Except.ok ()) [] "boom" [] 1
    (by simp) (by decide)

/-! ### C5 — per-item download failures are contained -/

/-- C5: per-item isolation of download errors.  (1) Whenever the search
phase succeeds, the result list of the whole call is exactly the output of
the fail-soft download loop — no download error escapes or truncates it.
(2) A candidate whose fetch-and-write succeeds has its path in the result,
regardless of how every other candidate fares — processing continues past
failures.  (3) If every item fails, the call still returns, with an empty
result sequence (and a status string, by totality of the definition). -/
theorem per_item_failures_contained (query folder : String)
    (api : List PageResult) (oracle : Nat → String → Except String Unit)
    (num : Nat) :
    (∀ out, searchPhase api num = Except.ok out →
      (search_and_download_images query api oracle num folder).1
        = downloadPhase oracle folder out.urls) ∧
    (∀ out, searchPhase api num = Except.ok out →
      ∀ p ∈ List.enumFrom 0 out.urls, (oracle p.1 p.2).isOk = true →
        imagePath folder p.1 p.2
          ∈ (search_and_download_images query api oracle num folder).1) ∧
    ((∀ i u, (oracle i u).isOk = false) →
      (search_and_download_images query api oracle num folder).1 = []) := by
  have key : ∀ out, searchPhase api num = Except.ok out →
      (search_and_download_images query api oracle num folder).1
        = downloadPhase oracle folder out.urls := by
    intro out h
    unfold search_and_download_images
    rw [h]
    show (if downloadPhase oracle folder out.urls = []
        then (([] : List String), noImagesMessage query)
        else (downloadPhase oracle folder out.urls,
          successMessage query (downloadPhase oracle folder out.urls).length)).1
      = downloadPhase oracle folder out.urls
    by_cases hd : downloadPhase oracle folder out.urls = []
    · rw [if_pos hd, hd]
    · rw [if_neg hd]
  refine ⟨key, ?_, ?_⟩
  · intro out h p hp hok
    rw [key out h, downloadPhase, downloadGo_eq]
    simp only [List.nil_append]
    apply List.mem_filterMap.mpr
    refine ⟨p, hp, ?_⟩
    cases ho : oracle p.1 p.2 with
    | ok v => simp [dlRecord, ho]
    | error e2 => rw [ho] at hok; exact Bool.noConfusion hok
  · intro hfail
    cases h : searchPhase api num with
    | error e =>
      unfold search_and_download_images
      rw [h]
    | ok out =>
      rw [key out h, downloadPhase, downloadGo_eq]
      simp only [List.nil_append]
      apply List.filterMap_eq_nil_iff.mpr
      intro p _
      cases ho : oracle p.1 p.2 with
      | ok v =>
        have hko := hfail p.1 p.2
        rw [ho] at hko
        exact Bool.noConfusion hko
      | error e2 => simp [dlRecord, ho]

/-- Witness for C5 at a concrete input: the search finds one candidate, its
download fails, and the call returns the empty result sequence. -/
theorem per_item_failures_contained_witness :
    (search_and_download_images "q" [Except.ok [Entry.mk (some "u.png") none]]
        (fun _ _ => Except.error "boom") 1 "d").1 = [] :=
  (per_item_failures_contained "q" "d" [Except.ok [Entry.mk (some "u.png") none]]
    (fun _ _ => Except.error "boom") 1).2.2 (fun _ _ => rfl)

/-! ### C6 — file extension derivation -/

/-- C6 (counterexample): the code derives the raw extension from the whole
URL, not from its trailing path segment with the query pre-stripped.
A dot-free URL `"img1"` keeps `"img1"` as extension instead of the claimed
`"jpg"`; the URL `".../pic.PNGx?size=99"` yields `"PNGx"` (4 characters,
alphanumeric — not the claimed 5), not `"jpg"`; and in
`"http://x/a?v=1.png"` the dot inside the query string supplies `"png"`
although the claim's trailing-segment derivation gives the empty extension
(hence `"jpg"`). -/
theorem extension_trailing_segment_cex :
    ("img1".data.contains '.') = false ∧
    fileExtension "img1" = "img1" ∧
    ("img1" : String) ≠ "jpg" ∧
    fileExtension "http://e.com/pic.PNGx?size=99" = "PNGx" ∧
    ("PNGx" : String) ≠ "jpg" ∧
    specTrailingExtension "http://x/a?v=1.png" = "" ∧
    fileExtension "http://x/a?v=1.png" = "png" := by
  exact ⟨by decide, by decide, by decide, by decide, by decide, by decide, by decide⟩

/-- C6 (amended): the raw extension is the chunk of the *full URL* after its
last dot, truncated at the first question mark (so a dot inside the query
string can supply it, and a dot-free URL yields the whole URL).  The saved
extension falls back to `"jpg"` exactly when that raw extension is longer
than 4 characters or not purely alphanumeric (in particular when empty).
Examples: `.PNGx?size=99` keeps `PNGx` (4 chars); a 5-char `PNGxy` falls
back to `jpg`; `/a/b.webp` keeps `webp`; `http://host/img` falls back to
`jpg` (its raw extension is the whole URL, which is not alphanumeric). -/
theorem extension_fallback_rule :
    (∀ url : String, 4 < (rawExtension url).length → fileExtension url = "jpg") ∧
    (∀ url : String, pyIsAlnum (rawExtension url) = false → fileExtension url = "jpg") ∧
    (∀ url : String, (rawExtension url).length ≤ 4 →
      pyIsAlnum (rawExtension url) = true → fileExtension url = rawExtension url) ∧
    fileExtension "http://e.com/pic.PNGx?size=99" = "PNGx" ∧
    fileExtension "http://e.com/pic.PNGxy?size=99" = "jpg" ∧
    fileExtension "http://e.com/a/b.webp" = "webp" ∧
    fileExtension "http://host/img" = "jpg" := by
  refine ⟨?_, ?_, ?_, by decide, by decide, by decide, by decide⟩
  · intro url h
    simp [fileExtension, h]
  · intro url h
    simp [fileExtension, h]
  · intro url h1 h2
    have h3 : ¬ 4 < (rawExtension url).length := by omega
    simp [fileExtension, h2, h3]

/-- Witness for C6's amended statement at a concrete input: `"x.png"` has
raw extension `"png"` (3 chars, alphanumeric) and keeps it. -/
theorem extension_fallback_rule_witness :
    (rawExtension "x.png").length ≤ 4 ∧ pyIsAlnum (rawExtension "x.png") = true ∧
    fileExtension "x.png" = rawExtension "x.png" :=
  ⟨by decide, by decide, extension_fallback_rule.2.2.1 "x.png" (by decide) (by decide)⟩

/-! ### C7 — filename sanitization -/

/-- C7 (counterexample): the claim's concrete example is off by one
underscore — `"C++ / Go?"` (9 characters) sanitizes to `"C__ _ Go_"`
(9 characters), not to the claimed 10-character `"C___ _ Go_"`. -/
theorem sanitize_example_cex :
    sanitize_filename "C++ / Go?" = "C__ _ Go_" ∧
    sanitize_filename "C++ / Go?" ≠ "C___ _ Go_" := by
  exact ⟨by decide, by decide⟩

/-- C7 (amended): sanitization maps the input character by character —
alphanumerics, space and underscore are kept, every other character becomes
an underscore — so the output pairs one-for-one with the input (same
length); and the example input `"C++ / Go?"` sanitizes to `"C__ _ Go_"`. -/
theorem sanitize_one_for_one :
    (∀ name : String, List.Forall₂
        (fun a b => b = if a.isAlphanum ∨ a = ' ' ∨ a = '_' then a else '_')
        name.data (sanitize_filename name).data) ∧
    sanitize_filename "C++ / Go?" = "C__ _ Go_" := by
  refine ⟨fun name => ?_, by decide⟩
  show List.Forall₂ _ name.data (name.data.map sanitizeChar)
  induction name.data with
  | nil => exact List.Forall₂.nil
  | cons c cs ih => exact List.Forall₂.cons rfl ih

/-! ### C8 — batch: one status per row -/

/-- C8 (counterexample): a row whose `numbers` cell is the float NaN (what
pandas stores for an empty numeric cell) passes validation — NaN is a float
and `NaN < 1` is false — and then `int(numbers)` at `isg.py` line 197
raises, aborting the whole batch.  With a NaN row followed by a perfectly
valid row, the batch returns a single terminal error string instead of one
status per input row, and the valid row is never processed. -/
theorem batch_nan_row_aborts_cex :
    processRows (fun _ => World.mk [] (fun _ _ => Except.ok ())) 0
        [BatchRow.mk "cat" PyVal.nan "animals",
          BatchRow.mk "dog" (PyVal.int 1) "animals"]
      = Except.error "cannot convert float NaN to integer" ∧
    download_images_batch (fun _ => World.mk [] (fun _ _ => Except.ok ()))
        [BatchRow.mk "cat" PyVal.nan "animals",
          BatchRow.mk "dog" (PyVal.int 1) "animals"]
      = "An error occurred while processing the CSV file. Error: cannot convert float NaN to integer" := by
  exact ⟨by rfl, by rfl⟩

/-- C8 (amended): provided no row's `numbers` cell is NaN, the batch run
processes the rows sequentially in input order and produces exactly one
status per input row, in input order — the skip status for each invalid row
(empty keyword, empty category, non-numeric or < 1 count, none of which
invoke the pipeline) and the pipeline's status for each valid row; one
row's pipeline failure never stops subsequent rows. -/
theorem batch_one_status_per_row (w : Nat → World) (rows : List BatchRow) :
    ∀ i : Nat, (∀ r ∈ rows, r.numbers ≠ PyVal.nan) →
      processRows w i rows
        = Except.ok ((List.enumFrom i rows).map (rowOutcome w)) := by
  induction rows with
  | nil => intro i _; rfl
  | cons r rs ih =>
    intro i h
    have hr : r.numbers ≠ PyVal.nan := h r (by simp)
    have hrs : ∀ x ∈ rs, x.numbers ≠ PyVal.nan := fun x hx => h x (by simp [hx])
    have hrec := ih (i + 1) hrs
    have henum : List.enumFrom i (r :: rs) = (i, r) :: List.enumFrom (i + 1) rs := rfl
    by_cases hv : rowInvalid r = true
    · simp only [processRows, if_pos hv, hrec, henum, List.map_cons]
      simp [rowOutcome, hv]
    · have hv' : rowInvalid r = false := by
        cases hvv : rowInvalid r
        · rfl
        · exact absurd hvv hv
      have hnum : pyIsNum r.numbers = true := by
        cases hn2 : pyIsNum r.numbers
        · simp [rowInvalid, hn2] at hv'
        · rfl
      cases hnv : r.numbers with
      | nan => exact absurd hnv hr
      | str s => rw [hnv] at hnum; exact absurd hnum (by simp [pyIsNum])
      | int n =>
        simp only [processRows, if_neg hv, hnv, pyToInt, hrec, henum, List.map_cons]
        simp [rowOutcome, hv', hnv, pyToInt, Except.toOption, Option.getD]
      | float q =>
        simp only [processRows, if_neg hv, hnv, pyToInt, hrec, henum, List.map_cons]
        simp [rowOutcome, hv', hnv, pyToInt, Except.toOption, Option.getD]

/-- Witness for C8's amended statement at a concrete input: an invalid row
(empty keyword) followed by a valid one yields exactly two statuses in
order — a skip status, then the pipeline status of the second row. -/
theorem batch_one_status_per_row_witness :
    processRows (fun _ => World.mk [] (fun _ _ => Except.ok ())) 0
        [BatchRow.mk "" (PyVal.int 5) "Cats", BatchRow.mk "dog" (PyVal.int 1) "Pets"]
      = Except.ok ((List.enumFrom 0
          [BatchRow.mk "" (PyVal.int 5) "Cats", BatchRow.mk "dog" (PyVal.int 1) "Pets"]).map
            (rowOutcome (fun _ => World.mk [] (fun _ _ => Except.ok ())))) :=
  batch_one_status_per_row (fun _ => World.mk [] (fun _ _ => Except.ok ()))
    [BatchRow.mk "" (PyVal.int 5) "Cats", BatchRow.mk "dog" (PyVal.int 1) "Pets"]
    0 (by decide)

/-! ### C9 — clearing the download tree -/

theorem clearSubs_all_files :
    ∀ cs : List FSNode, (∀ c ∈ cs, c = FSNode.file) → clearSubs cs = ([], none) := by
  intro cs
  induction cs with
  | nil => intro _; rfl
  | cons c cs ih =>
    intro h
    have hc := h c (by simp)
    subst hc
    simp only [clearSubs]
    exact ih (fun x hx => h x (by simp [hx]))

theorem clearTop_flat :
    ∀ l : List FSNode, (∀ n ∈ l, flatNode n = true) → clearTop l = ([], none) := by
  intro l
  induction l with
  | nil => intro _; rfl
  | cons n rest ih =>
    intro h
    cases n with
    | file =>
      simp only [clearTop]
      exact ih (fun x hx => h x (by simp [hx]))
    | dir cs =>
      have hcs : ∀ c ∈ cs, c = FSNode.file := by
        have hd := h (FSNode.dir cs) (by simp)
        simp only [flatNode, List.all_eq_true] at hd
        intro c hc
        have hdc := hd c hc
        cases c with
        | file => rfl
        | dir ds => exact absurd hdc (by simp)
      simp only [clearTop, clearSubs_all_files cs hcs]
      exact ih (fun x hx => h x (by simp [hx]))

/-- C9 (counterexample): on the tree that batch mode creates —
`root/category/keyword/image` — the clear operation does *not* remove
everything: `subfile.unlink()` hits the second-level `keyword` directory,
raises `IsADirectoryError`, and the call returns a failure status with the
nested folders still present (only the root folder itself survives by
construction). -/
theorem clear_recursive_cex :
    (clear_downloaded_images [FSNode.dir [FSNode.dir [FSNode.file]]]).2
        ≠ "Download folder cleared." ∧
    (clear_downloaded_images [FSNode.dir [FSNode.dir [FSNode.file]]]).1 ≠ [] := by
  constructor
  · intro hcontra
    have h2 : (clear_downloaded_images [FSNode.dir [FSNode.dir [FSNode.file]]]).2
        = "Failed to clear download folder: IsADirectoryError" := rfl
    rw [h2] at hcontra
    exact absurd hcontra (by decide)
  · intro hcontra
    have h1 : (clear_downloaded_images [FSNode.dir [FSNode.dir [FSNode.file]]]).1
        = [FSNode.dir [FSNode.dir [FSNode.file]]] := rfl
    rw [h1] at hcontra
    exact absurd hcontra (List.cons_ne_nil _ _)

/-- C9 (amended): the clear operation removes everything and reports
success exactly on trees of depth at most two — files directly under the
root plus first-level folders whose children are all plain files (the
single-mode layout); the root folder itself is never touched.  Deeper
nesting, as created by batch mode, makes it fail instead (see the
counterexample). -/
theorem clear_removes_flat_tree (root : List FSNode)
    (h : ∀ n ∈ root, flatNode n = true) :
    clear_downloaded_images root = ([], "Download folder cleared.") := by
  unfold clear_downloaded_images
  rw [clearTop_flat root h]

/-- Witness for C9's amended statement at a concrete input: a root holding
one folder of two files plus a loose file is fully cleared. -/
theorem clear_removes_flat_tree_witness :
    clear_downloaded_images [FSNode.dir [FSNode.file, FSNode.file], FSNode.file]
      = ([], "Download folder cleared.") :=
  clear_removes_flat_tree [FSNode.dir [FSNode.file, FSNode.file], FSNode.file]
    (by decide)

/-! ### C10 — successful downloads never exceed the target -/

/-- C10: for every call of the pipeline with target `num`, the number of
files recorded as downloaded never exceeds `num`: the candidate list is
truncated to `num` before downloading and the loop writes at most one file
per candidate. -/
theorem downloads_never_exceed_target (query folder : String)
    (api : List PageResult) (oracle : Nat → String → Except String Unit)
    (num : Nat) :
    (search_and_download_images query api oracle num folder).1.length ≤ num := by
  unfold search_and_download_images
  cases h : searchPhase api num with
  | error e => simp
  | ok out =>
    have h1 : out.urls.length ≤ num := searchPhase_urls_le h
    have h2 : (downloadPhase oracle folder out.urls).length ≤ out.urls.length := by
      rw [downloadPhase, downloadGo_eq]
      simp only [List.nil_append]
      exact le_trans (List.length_filterMap_le _ _) (le_of_eq List.enumFrom_length)
    show (if downloadPhase oracle folder out.urls = []
        then (([] : List String), noImagesMessage query)
        else (downloadPhase oracle folder out.urls,
          successMessage query (downloadPhase oracle folder out.urls).length)).1.length
      ≤ num
    by_cases hd : downloadPhase oracle folder out.urls = []
    · rw [if_pos hd]
      simp
    · rw [if_neg hd]
      exact le_trans h2 h1
